import Mathlib

/-!
Verification of the ws-multiplexer core (socket.ts, client.ts, server.ts).

The embedding models the multiplexing engine shallowly:

* `WireMsg` is the four-variant wire message union (`MultiplexMessage`).
* `MSocket` is the state of one `AbstractMultiplexSocket` object: its object
  identity `sid`, its `channel` field (the empty string models the falsy
  JS-undefined initial value), the close function currently installed on it
  (`CloseBehavior`), and the list of events delivered to its listeners.
* `MuxState` is the state of one `Multiplexer` instance together with its
  physical WebSocket: the channel registry (an insertion-ordered record),
  all socket objects, the frames passed to the physical `socket.send`, the
  readiness of the physical socket, and the `console.error` log.

JS `Record` objects are modelled as insertion-ordered association lists
(`lookupA`, `setA`, `delA`); a `Record` never holds a duplicate key because
assignment overwrites in place. Functions that can throw return
`Except String`.
-/

/-- The wire message union `MultiplexMessage` from socket.ts.
`connect` carries no channel (the field is typed `never`), `openm` models
the `open` variant. -/
inductive WireMsg where
  | connect (ref backend : String)
  | openm (channel ref : String)
  | data (channel : String) (payload : String)
  | close (channel : String) (code : Option Nat) (reason : Option String)
deriving DecidableEq, Repr

/-- A local event delivered to the listeners of one logical socket, via the
`emit` helper or `dispatchEvent` (dispatch plus optional handler call count
as one delivery). -/
inductive LEvent where
  | msgEv (payload : String)
  | closeEv (code : Option Nat) (reason : Option String)
  | errEv
  | openEv
deriving DecidableEq, Repr

/-- Which `close` function is currently installed on a socket object:
the throwing base method of `AbstractMultiplexSocket`, the temporary
handler installed by `MultiplexerClient.connect` (which only deletes the
temporary registry entry), or the full handler installed by
`Multiplexer.addChannel` together with its captured `closed` flag. -/
inductive CloseBehavior where
  | base
  | tempRef (ref : String)
  | installed (closed : Bool)
deriving DecidableEq, Repr

/-- One `AbstractMultiplexSocket` object. `sid` is the object identity,
`channel` is the `channel` field where `""` models the falsy initial
JS-undefined value. -/
structure MSocket where
  sid : Nat
  channel : String
  closeB : CloseBehavior
  events : List LEvent
deriving DecidableEq, Repr

/-- The state of one `Multiplexer` instance and its physical socket.
`physSent` collects every frame passed to the physical `socket.send`;
`physReady` is `readyState === WebSocket.OPEN`. -/
structure MuxState where
  channels : List (String × Nat)
  socks : List MSocket
  physSent : List WireMsg
  physReady : Bool
  log : List String
deriving DecidableEq, Repr

/-- Record lookup `m[k]` (`none` models the falsy undefined). -/
def lookupA : List (String × Nat) → String → Option Nat
  | [], _ => none
  | p :: r, k => if p.1 = k then some p.2 else lookupA r k

/-- Record assignment `m[k] = v`: overwrites in place, else appends. -/
def setA : List (String × Nat) → String → Nat → List (String × Nat)
  | [], k, v => [(k, v)]
  | p :: r, k, v => if p.1 = k then (k, v) :: r else p :: setA r k v

/-- Record deletion `delete m[k]`. -/
def delA : List (String × Nat) → String → List (String × Nat)
  | [], _ => []
  | p :: r, k => if p.1 = k then delA r k else p :: delA r k

/-- Dereferencing a socket object id. -/
def findSock : List MSocket → Nat → Option MSocket
  | [], _ => none
  | s :: r, i => if s.sid = i then some s else findSock r i

/-- Mutating the socket object with id `i`. -/
def updSock (socks : List MSocket) (i : Nat) (f : MSocket → MSocket) : List MSocket :=
  socks.map (fun s => if s.sid = i then f s else s)

/-- The events delivered so far to the listeners of socket `i`. -/
def eventsOf (st : MuxState) (i : Nat) : List LEvent :=
  ((findSock st.socks i).map MSocket.events).getD []

/-- `AbstractMultiplexSocket.send`: a falsy `channel` field logs
`channel was closed` and performs no network action; otherwise the payload
is wrapped in a `data` frame and passed to the physical `socket.send`. -/
def sendData (st : MuxState) (i : Nat) (payload : String) : MuxState :=
  match findSock st.socks i with
  | none => st
  | some s =>
    if s.channel = "" then { st with log := st.log ++ ["channel was closed"] }
    else { st with physSent := st.physSent ++ [WireMsg.data s.channel payload] }

/-- The mutation the installed close handler performs on the socket
object: flips the captured `closed` flag and appends the local close
event. -/
def closeUpd (code : Option Nat) (reason : Option String) (t : MSocket) : MSocket :=
  { t with closeB := CloseBehavior.installed true,
           events := t.events ++ [LEvent.closeEv code reason] }

/-- Calling `sock.close(code, reason)`: dispatches on the close function
currently installed on the object. The base method throws; the temporary
client handler deletes the temporary registry entry only; the
`addChannel` handler consults its captured `closed` flag, sends a `close`
frame only while the physical socket is open, delivers one local close
event and deletes the registry entry at the current `sock.channel`. -/
def callClose (st : MuxState) (i : Nat) (code : Option Nat) (reason : Option String) :
    Except String MuxState :=
  match findSock st.socks i with
  | none => Except.error "no such socket object"
  | some s =>
    match s.closeB with
    | CloseBehavior.base =>
        Except.error "This method should be overridden by the Multiplexer."
    | CloseBehavior.tempRef ref =>
        Except.ok { st with channels := delA st.channels ref }
    | CloseBehavior.installed true => Except.ok st
    | CloseBehavior.installed false =>
        Except.ok { st with
          physSent :=
            if st.physReady then st.physSent ++ [WireMsg.close s.channel code reason]
            else st.physSent,
          socks := updSock st.socks i (closeUpd code reason),
          channels := delA st.channels s.channel }

/-- `AbstractMultiplexSocket.handleMessage`: a `data` frame becomes a local
message event; a `close` frame calls the installed `close` with the code
and reason of the frame; other variants fall through the switch. -/
def handleMessage (st : MuxState) (i : Nat) (msg : WireMsg) : Except String MuxState :=
  match msg with
  | WireMsg.data _ payload =>
      Except.ok { st with socks := updSock st.socks i (fun t =>
        { t with events := t.events ++ [LEvent.msgEv payload] }) }
  | WireMsg.close _ code reason => callClose st i code reason
  | _ => Except.ok st

/-- The `channel` field of a wire message; `connect` has none (typed
`never`), modelled by the falsy `""`. -/
def channelOf : WireMsg → String
  | WireMsg.connect _ _ => ""
  | WireMsg.openm c _ => c
  | WireMsg.data c _ => c
  | WireMsg.close c _ _ => c

/-- `Multiplexer.handleChannelMessage`: a missing channel and a registry
miss are logged and the frame is dropped; a hit dispatches to the
registered socket. -/
def handleChannelMessage (st : MuxState) (msg : WireMsg) : Except String MuxState :=
  if channelOf msg = "" then
    Except.ok { st with log := st.log ++ ["expected channel message"] }
  else
    match lookupA st.channels (channelOf msg) with
    | none =>
        Except.ok { st with log := st.log ++ ["channel not found" ++ channelOf msg] }
    | some i => handleMessage st i msg

/-- `Multiplexer.addChannel`: sets `sock.channel`, installs the full close
handler with a fresh `closed` flag set to false, and registers the socket
in the registry under the channel id. -/
def addChannel (st : MuxState) (i : Nat) (channel : String) : MuxState :=
  { st with
    socks := updSock st.socks i (fun t =>
      { t with channel := channel, closeB := CloseBehavior.installed false }),
    channels := setA st.channels channel i }

/-- The `forEach` loop of the physical `onclose` handler: calls
`sock.close(code, reason)` on each socket of the snapshot in order,
propagating a thrown exception. -/
def closeAllGo (st : MuxState) (ids : List Nat) (code : Option Nat)
    (reason : Option String) : Except String MuxState :=
  match ids with
  | [] => Except.ok st
  | i :: rest =>
    match callClose st i code reason with
    | Except.ok st2 => closeAllGo st2 rest code reason
    | Except.error e => Except.error e

/-- The physical `onclose` handler wired by `wireDefaultEvents`: when it
fires the transport readyState is no longer OPEN (hence `physReady` is
false for the remainder), and `Object.values` takes a snapshot of the
registry before the iteration. -/
def physOnClose (st : MuxState) (code : Option Nat) (reason : Option String) :
    Except String MuxState :=
  closeAllGo { st with physReady := false } (st.channels.map Prod.snd) code reason

/-- The physical `onerror` handler wired by `wireDefaultEvents`: emits the
error event on every registered socket. -/
def physOnError (st : MuxState) : MuxState :=
  (st.channels.map Prod.snd).foldl
    (fun s i =>
      { s with socks := updSock s.socks i (fun t =>
          { t with events := t.events ++ [LEvent.errEv] }) })
    st

/-!
Client role (client.ts): the `MultiplexerClient` with its pre-ready send
queue, the `connect` handshake initiation, the `open` flush, the `open`
message remap, and the process-wide connection pool of `getMuxer`.
-/

/-- The state of one `MultiplexerClient`: its multiplexer/transport state
plus the `pending` queue of postponed `socket.send` thunks; `none` models
the `undefined` the queue is set to once the transport became ready. -/
structure ClientState where
  mux : MuxState
  pending : Option (List WireMsg)
deriving DecidableEq, Repr

/-- A freshly constructed `MultiplexerClient`: empty registry, transport
not yet ready, empty pending queue. -/
def newClient : ClientState :=
  { mux := { channels := [], socks := [], physSent := [], physReady := false, log := [] },
    pending := some [] }

/-- The send-or-postpone step at the end of `MultiplexerClient.connect`:
if `pending` is undefined the open handler ran and the frame goes to
`socket.send` directly, otherwise the send is pushed onto the queue. -/
def clientSendRaw (c : ClientState) (m : WireMsg) : ClientState :=
  match c.pending with
  | none => { c with mux := { c.mux with physSent := c.mux.physSent ++ [m] } }
  | some q => { c with pending := some (q ++ [m]) }

/-- `MultiplexerClient.connect`: registers the socket under the temporary
reference `ref` (the result of `randomId`, supplied here as the random
oracle), installs the temporary close handler that only deletes that
entry, and sends (or queues) the `connect` frame naming `sock.url`. -/
def clientConnect (c : ClientState) (i : Nat) (ref : String) (url : String) : ClientState :=
  let mux := { c.mux with
    channels := setA c.mux.channels ref i,
    socks := updSock c.mux.socks i (fun t =>
      { t with closeB := CloseBehavior.tempRef ref }) }
  clientSendRaw { c with mux := mux } (WireMsg.connect ref url)

/-- The physical `onopen` handler of `MultiplexerClient`: when it fires the
transport is OPEN; every queued send runs in submission order and the
queue is set to undefined. -/
def clientOnOpen (c : ClientState) : ClientState :=
  { mux := { c.mux with
      physReady := true,
      physSent := c.mux.physSent ++ c.pending.getD [] },
    pending := none }

/-- `MultiplexerClient.handleOpenMessage`: moves the socket from the
temporary reference to the permanent channel id (assignment first, then
deletion of the old key), completes registration via `addChannel`, and
emits the open event. A missing temporary reference makes `addChannel`
dereference undefined, a TypeError caught by the onmessage try block. -/
def handleOpenMessage (c : ClientState) (channel ref : String) : Except String ClientState :=
  match lookupA c.mux.channels ref with
  | none => Except.error "TypeError: sock is undefined"
  | some i =>
    let mux1 := { c.mux with channels := delA (setA c.mux.channels channel i) ref }
    let mux2 := addChannel mux1 i channel
    let mux3 := { mux2 with socks := updSock mux2.socks i (fun t =>
      { t with events := t.events ++ [LEvent.openEv] }) }
    Except.ok { c with mux := mux3 }

/-- The `MultiplexSocket` constructor body after the muxer was obtained:
the new socket object starts with the throwing base close method and a
falsy channel field, then `muxer.connect(this)` runs before the
constructor returns the object to application code. -/
def newMultiplexSocket (c : ClientState) (i : Nat) (ref : String) (url : String) : ClientState :=
  let c1 := { c with mux := { c.mux with socks := c.mux.socks ++
    [{ sid := i, channel := "", closeB := CloseBehavior.base, events := [] }] } }
  clientConnect c1 i ref url

/-- The process-wide client pool of client.ts: the module-level `registry`
record mapping a key to a pooled `MultiplexerClient`, and the counter of
`MultiplexerClient` constructions (each construction opens exactly one
physical WebSocket). -/
structure Pool where
  entries : List (String × Nat)
  nextId : Nat
deriving DecidableEq, Repr

/-- `getMuxer`: key is the url concatenated with the protocols string; a
present entry is reused, otherwise a new client is constructed and
stored. -/
def getMuxer (p : Pool) (url : String) (protos : String) : Nat × Pool :=
  let key := url ++ protos
  match lookupA p.entries key with
  | some cid => (cid, p)
  | none => (p.nextId, { entries := p.entries ++ [(key, p.nextId)], nextId := p.nextId + 1 })

/-- The character list cut point of `url.lastIndexOf` of the slash:
JS `substring(0, -1)` on a miss clamps to the empty string. -/
def lastSlashCut (l : List Char) : Nat :=
  match l.reverse.findIdx? (fun ch => ch == '/') with
  | some i => l.length - 1 - i
  | none => 0

/-- The pooling key base computed by the `MultiplexSocket` constructor:
`url.substring(0, url.lastIndexOf` of the slash `)`. -/
def baseOf (url : String) : String :=
  ⟨url.toList.take (lastSlashCut url.toList)⟩

/-- The pool interaction of the `MultiplexSocket` constructor:
`getMuxer(url.substring(0, url.lastIndexOf(..)), protocols)`. -/
def requestSocket (p : Pool) (url : String) (protos : String) : Nat × Pool :=
  getMuxer p (baseOf url) protos

/-- Events that can touch the process-wide pool over time: further socket
requests, and transport close/error events on a pooled client. The close
and error handlers wired by `wireDefaultEvents` mutate only that client
internal channel registry, never the module-level pool record. -/
inductive PoolOp where
  | getM (url protos : String)
  | connClose (key : String)
  | connError (key : String)
deriving DecidableEq, Repr

/-- One pool-visible step. -/
def poolStep (p : Pool) (op : PoolOp) : Pool :=
  match op with
  | PoolOp.getM url protos => (requestSocket p url protos).2
  | PoolOp.connClose _ => p
  | PoolOp.connError _ => p

/-- A sequence of pool-visible steps. -/
def poolRun (p : Pool) : List PoolOp → Pool
  | [] => p
  | op :: rest => poolRun (poolStep p op) rest

/-!
Server role (server.ts): backend resolution from the last non-empty path
segment and the `connect` handler.
-/

/-- The state of one `MultiplexerServer` connection handler: the
multiplexer/transport state, the key set of the externally supplied
backends table (handlers are opaque callbacks), the stream of ids that
`randomId` will return (the random oracle), the next fresh socket object
identity, and the socket ids handed to backend callbacks. -/
structure ServerState where
  mux : MuxState
  backends : List String
  ids : List String
  nextSid : Nat
  exposed : List Nat
deriving DecidableEq, Repr

/-- The JS string split on the slash separator: every separator occurrence
starts a new segment, and leading, trailing and adjacent separators yield
empty segments. -/
def splitSlashAux : List Char → List Char → List String
  | [], acc => [⟨acc.reverse⟩]
  | ch :: rest, acc =>
    if ch = '/' then (⟨acc.reverse⟩ : String) :: splitSlashAux rest []
    else splitSlashAux rest (ch :: acc)

/-- `backend.split` on the slash. -/
def splitSlash (backend : String) : List String :=
  splitSlashAux backend.toList []

/-- The id extraction of `getBackend`:
`msg.backend.split` on the slash, drop falsy segments, `pop`. -/
def lastSegment (backend : String) : Option String :=
  ((splitSlash backend).filter (fun s => s ≠ "")).getLast?

/-- The property names every plain JS object inherits from the Object
prototype: a property read such as `this.backends[id]` resolves these to
truthy values (functions, or the prototype object itself for the
dunder-proto accessor) even when they are not own keys of the supplied
table. -/
def protoKeys : List String :=
  ["constructor", "hasOwnProperty", "isPrototypeOf", "propertyIsEnumerable",
   "toLocaleString", "toString", "valueOf", "__proto__",
   "__defineGetter__", "__defineSetter__", "__lookupGetter__", "__lookupSetter__"]

/-- Whether `getBackend` resolves: a truthy extracted id whose property
read on the backends record yields a truthy value — an own key of the
supplied table, or a property inherited from the Object prototype. -/
def getBackendHit (backends : List String) (backend : String) : Bool :=
  match lastSegment backend with
  | some seg => backends.contains seg || protoKeys.contains seg
  | none => false

/-- `MultiplexerServer.handleConnectMessage`: a resolution miss logs
`backend not found` and returns; a hit takes a fresh id from `randomId`,
sends the `open` frame, constructs the server-side socket (base close,
falsy channel), registers it via `addChannel`, hands it to the backend
callback and emits the open event. The empty-oracle branch is unreachable
in real runs since `randomId` always returns an id. -/
def handleConnectMessage (s : ServerState) (ref backendUrl : String) : ServerState :=
  if getBackendHit s.backends backendUrl then
    match s.ids with
    | [] => s
    | newId :: rest =>
      let mux1 := { s.mux with physSent := s.mux.physSent ++ [WireMsg.openm newId ref] }
      let sock : MSocket :=
        { sid := s.nextSid, channel := "", closeB := CloseBehavior.base, events := [] }
      let mux2 := addChannel { mux1 with socks := mux1.socks ++ [sock] } s.nextSid newId
      let mux3 := { mux2 with socks := updSock mux2.socks s.nextSid (fun t =>
        { t with events := t.events ++ [LEvent.openEv] }) }
      { s with mux := mux3, ids := rest, nextSid := s.nextSid + 1,
               exposed := s.exposed ++ [s.nextSid] }
  else
    { s with mux := { s.mux with log := s.mux.log ++ ["backend not found"] } }

/-- A run of `MultiplexerClient.connect` calls: each request is the object
id of the requesting socket, the temporary reference returned by
`randomId`, and the socket url. -/
def runConnects (c : ClientState) : List (Nat × String × String) → ClientState
  | [] => c
  | r :: rest => runConnects (clientConnect c r.1 r.2.1 r.2.2) rest

/-- The `connect` frame produced by one such request. -/
def connectFrame (r : Nat × String × String) : WireMsg :=
  WireMsg.connect r.2.1 r.2.2

/-- The registry entry `p` points at a socket object that `addChannel`
registered under exactly that key and that has not been closed since. -/
def sockRegOk (socks : List MSocket) (p : String × Nat) : Prop :=
  (findSock socks p.2).map MSocket.channel = some p.1 ∧
  (findSock socks p.2).map MSocket.closeB = some (CloseBehavior.installed false)

/-- Well-formedness of a registry whose entries all come from completed
`addChannel` registrations: every entry points at a live socket carrying
its key, and neither keys nor socket objects repeat. -/
def regOk (st : MuxState) : Prop :=
  (∀ p ∈ st.channels, sockRegOk st.socks p) ∧
  (st.channels.map Prod.fst).Nodup ∧ (st.channels.map Prod.snd).Nodup

instance (socks : List MSocket) (p : String × Nat) : Decidable (sockRegOk socks p) := by
  unfold sockRegOk; infer_instance

instance (st : MuxState) : Decidable (regOk st) := by
  unfold regOk; infer_instance

/-- A multiplexer holding one freshly constructed, not yet registered
socket object, over an open transport. -/
def c1State0 : MuxState :=
  { channels := [],
    socks := [{ sid := 0, channel := "", closeB := CloseBehavior.base, events := [] }],
    physSent := [], physReady := true, log := [] }

/-- The state of `c1State0` after `addChannel` registered socket 0 under
channel `abc12` and its installed close handler ran once. -/
def c1Closed : MuxState :=
  { channels := [],
    socks := [{ sid := 0, channel := "abc12", closeB := CloseBehavior.installed true,
                events := [LEvent.closeEv none none] }],
    physSent := [WireMsg.close "abc12" none none], physReady := true, log := [] }

/-- An empty multiplexer over an open transport. -/
def emptyMux : MuxState :=
  { channels := [], socks := [], physSent := [], physReady := true, log := [] }

/-- A server connection whose `randomId` oracle returns the same id twice:
possible, since `randomId` draws five base36 digits from `Math.random`
with no collision check against the registry. -/
def c2ServerState : ServerState :=
  { mux := emptyMux, backends := ["echo"], ids := ["abc12", "abc12"],
    nextSid := 0, exposed := [] }

/-- The server state after the first `connect` of the collision run. -/
def c2s1 : ServerState := handleConnectMessage c2ServerState "r1" "ws://h/echo"

/-- The server state after the second `connect` of the collision run. -/
def c2s2 : ServerState := handleConnectMessage c2s1 "r2" "ws://h/echo"

/-- A server connection with one live registered stream and a fresh id
next on the `randomId` oracle. -/
def c2WitnessState : ServerState :=
  { mux := { channels := [("abc12", 0)],
             socks := [{ sid := 0, channel := "abc12",
                         closeB := CloseBehavior.installed false, events := [] }],
             physSent := [], physReady := true, log := [] },
    backends := ["echo"], ids := ["zzz99"], nextSid := 1, exposed := [0] }

/-- A multiplexer with one stream registered by `addChannel` under
`aaa12`, over an open transport. -/
def regState1 : MuxState :=
  { channels := [("aaa12", 0)],
    socks := [{ sid := 0, channel := "aaa12",
                closeB := CloseBehavior.installed false, events := [] }],
    physSent := [], physReady := true, log := [] }

/-- A multiplexer with three streams registered by `addChannel`, over an
open transport. -/
def c5State : MuxState :=
  { channels := [("aaa11", 0), ("bbb22", 1), ("ccc33", 2)],
    socks := [{ sid := 0, channel := "aaa11",
                closeB := CloseBehavior.installed false, events := [] },
              { sid := 1, channel := "bbb22",
                closeB := CloseBehavior.installed false, events := [] },
              { sid := 2, channel := "ccc33",
                closeB := CloseBehavior.installed false, events := [] }],
    physSent := [], physReady := true, log := [] }

/-- A server connection with an `echo` backend and one id on the oracle. -/
def c8ServerState : ServerState :=
  { mux := emptyMux, backends := ["echo"], ids := ["abc12"],
    nextSid := 0, exposed := [] }

/-- A multiplexer holding one socket object still carrying the base close
method: the state of a `MultiplexSocket` mid-construction, before
`muxer.connect` has run. -/
def preConnectSocketState : MuxState :=
  { channels := [],
    socks := [{ sid := 0, channel := "", closeB := CloseBehavior.base, events := [] }],
    physSent := [], physReady := false, log := [] }

/-!
Helper lemmas about the record and socket-object operations.
-/

theorem lookupA_delA_self (m : List (String × Nat)) (k : String) :
    lookupA (delA m k) k = none := by
  induction m with
  | nil => rfl
  | cons p r ih =>
    by_cases h : p.1 = k
    · simpa [delA, h] using ih
    · simpa [delA, lookupA, h] using ih

theorem delA_of_not_mem {m : List (String × Nat)} {k : String}
    (h : k ∉ m.map Prod.fst) : delA m k = m := by
  induction m with
  | nil => rfl
  | cons p r ih =>
    rw [List.map_cons, List.mem_cons, not_or] at h
    simp only [delA]
    rw [if_neg (fun e => h.1 e.symm), ih h.2]

theorem setA_of_not_mem {m : List (String × Nat)} {k : String} (v : Nat)
    (h : k ∉ m.map Prod.fst) : setA m k v = m ++ [(k, v)] := by
  induction m with
  | nil => rfl
  | cons p r ih =>
    rw [List.map_cons, List.mem_cons, not_or] at h
    simp only [setA]
    rw [if_neg (fun e => h.1 e.symm), ih h.2]
    rfl

theorem lookupA_eq_none_of_not_mem {m : List (String × Nat)} {k : String}
    (h : k ∉ m.map Prod.fst) : lookupA m k = none := by
  induction m with
  | nil => rfl
  | cons p r ih =>
    rw [List.map_cons, List.mem_cons, not_or] at h
    simp only [lookupA]
    rw [if_neg (fun e => h.1 e.symm)]
    exact ih h.2

theorem lookupA_append_left {m : List (String × Nat)} {k : String} {c : Nat}
    (m2 : List (String × Nat)) (h : lookupA m k = some c) :
    lookupA (m ++ m2) k = some c := by
  induction m with
  | nil => exact absurd h (by simp [lookupA])
  | cons p r ih =>
    simp only [lookupA] at h ⊢
    by_cases hp : p.1 = k
    · rwa [if_pos hp] at h ⊢
    · rw [if_neg hp] at h ⊢
      exact ih h

theorem lookupA_append_right {m : List (String × Nat)} {k : String}
    (m2 : List (String × Nat)) (h : lookupA m k = none) :
    lookupA (m ++ m2) k = lookupA m2 k := by
  induction m with
  | nil => rfl
  | cons p r ih =>
    simp only [lookupA] at h ⊢
    by_cases hp : p.1 = k
    · rw [if_pos hp] at h; exact absurd h (by simp)
    · rw [if_neg hp] at h ⊢
      exact ih h

theorem updSock_of_fresh {socks : List MSocket} {i : Nat} (f : MSocket → MSocket)
    (h : ∀ t ∈ socks, t.sid ≠ i) : updSock socks i f = socks := by
  induction socks with
  | nil => rfl
  | cons s r ih =>
    simp only [updSock, List.map_cons]
    rw [if_neg (h s (List.mem_cons_self s r))]
    exact congrArg (s :: ·) (ih (fun t ht => h t (List.mem_cons_of_mem s ht)))

theorem findSock_append_of_fresh {xs : List MSocket} {i : Nat} (ys : List MSocket)
    (h : ∀ t ∈ xs, t.sid ≠ i) : findSock (xs ++ ys) i = findSock ys i := by
  induction xs with
  | nil => rfl
  | cons s r ih =>
    simp only [List.cons_append, findSock]
    rw [if_neg (h s (List.mem_cons_self s r))]
    exact ih (fun t ht => h t (List.mem_cons_of_mem s ht))

theorem findSock_updSock_ne {socks : List MSocket} {i j : Nat} (f : MSocket → MSocket)
    (hf : ∀ t, (f t).sid = t.sid) (hne : j ≠ i) :
    findSock (updSock socks i f) j = findSock socks j := by
  induction socks with
  | nil => rfl
  | cons s r ih =>
    simp only [updSock, List.map_cons, findSock]
    by_cases hsi : s.sid = i
    · have hfsj : ¬ (f s).sid = j := by rw [hf s, hsi]; exact fun e => hne e.symm
      have hsj : ¬ s.sid = j := by rw [hsi]; exact fun e => hne e.symm
      rw [if_pos hsi, if_neg hfsj, if_neg hsj]
      exact ih
    · rw [if_neg hsi]
      by_cases hsj : s.sid = j
      · rw [if_pos hsj, if_pos hsj]
      · rw [if_neg hsj, if_neg hsj]
        exact ih

theorem findSock_updSock_self {socks : List MSocket} {i : Nat} {s : MSocket}
    (f : MSocket → MSocket) (hf : ∀ t, (f t).sid = t.sid)
    (h : findSock socks i = some s) :
    findSock (updSock socks i f) i = some (f s) := by
  induction socks with
  | nil => exact absurd h (by simp [findSock])
  | cons t r ih =>
    simp only [findSock] at h
    simp only [updSock, List.map_cons, findSock]
    by_cases hti : t.sid = i
    · rw [if_pos hti] at h
      have hts : t = s := Option.some.inj h
      subst hts
      rw [if_pos hti, if_pos (by rw [hf t]; exact hti)]
    · rw [if_neg hti] at h
      rw [if_neg hti, if_neg hti]
      exact ih h

/-!
Claim theorems.
-/

/-- C1: the spec states that sending on a Logical Stream after its close()
has run performs no network transmission and only reports an error
locally. The code contradicts this: the close handler installed by
`addChannel` never clears the `channel` field it set, so the guard in
`send` (which logs `channel was closed` for a falsy channel) does not
fire, and the data frame is still passed to the physical socket. The
evaluation below runs the failing input: socket 0 is registered under
channel `abc12`, its close() runs (producing `c1Closed`), and a
subsequent send still transmits a `data` frame and logs nothing. -/
theorem c1_send_after_close_transmits :
    callClose (addChannel c1State0 0 "abc12") 0 none none = Except.ok c1Closed ∧
    sendData c1Closed 0 "hi"
      = { c1Closed with physSent := c1Closed.physSent ++ [WireMsg.data "abc12" "hi"] } :=
  ⟨rfl, rfl⟩

/-- C2, counterexample: permanent channel ids generated by the server are
not always unique among currently-open streams. `randomId` draws five
base36 digits from `Math.random` with no check against the registry, so
it can return an id that is still registered; `handleConnectMessage` then
registers the new stream under that id and overwrites the live entry.
After the run below, stream 0 is still open (its installed close handler
never ran) yet no longer registered: its entry was overwritten by
stream 1. -/
theorem c2_collision_overwrites_live_entry :
    lookupA c2s1.mux.channels "abc12" = some 0 ∧
    (findSock c2s1.mux.socks 0).map MSocket.closeB
      = some (CloseBehavior.installed false) ∧
    lookupA c2s2.mux.channels "abc12" = some 1 ∧
    (findSock c2s2.mux.socks 0).map MSocket.closeB
      = some (CloseBehavior.installed false) ∧
    (c2s2.mux.channels.map Prod.snd).contains 0 = false := by
  decide

/-- C2, amended: provided the id returned by `randomId` does not collide
with a currently registered channel id, the registration performed by
`handleConnectMessage` appends a fresh registry entry and overwrites no
live entry, so the new permanent id is unique among the currently-open
streams of the connection. -/
theorem c2_fresh_id_appends_entry (s : ServerState) (ref backendUrl newId : String)
    (rest : List String)
    (hids : s.ids = newId :: rest)
    (hhit : getBackendHit s.backends backendUrl = true)
    (hfresh : newId ∉ s.mux.channels.map Prod.fst) :
    (handleConnectMessage s ref backendUrl).mux.channels
      = s.mux.channels ++ [(newId, s.nextSid)] := by
  simp only [handleConnectMessage, hhit, if_true, hids, addChannel]
  exact setA_of_not_mem s.nextSid hfresh

/-- Witness for the amended C2 at a concrete connection with one live
stream and a fresh id next on the oracle. -/
theorem c2_fresh_id_appends_entry_witness :
    c2WitnessState.ids = "zzz99" :: [] ∧
    getBackendHit c2WitnessState.backends "ws://h/echo" = true ∧
    "zzz99" ∉ c2WitnessState.mux.channels.map Prod.fst ∧
    (handleConnectMessage c2WitnessState "r2" "ws://h/echo").mux.channels
      = c2WitnessState.mux.channels ++ [("zzz99", c2WitnessState.nextSid)] :=
  ⟨rfl, by decide, by decide,
    c2_fresh_id_appends_entry c2WitnessState "r2" "ws://h/echo" "zzz99" [] rfl
      (by decide) (by decide)⟩

/-- C3: a `close` frame for a registered channel X delivers exactly one
local close event, carrying the code and reason of the frame, to the
stream of X and to no other stream, and removes X from the registry; a
`data` frame for X received afterwards is a logged routing miss delivered
to no stream (the resulting state differs only by the log line). -/
theorem c3_close_frame_then_data_miss (st : MuxState) (x : String) (i : Nat)
    (code : Option Nat) (reason : Option String) (payload : String) (s : MSocket)
    (hx : x ≠ "")
    (hreg : lookupA st.channels x = some i)
    (hs : findSock st.socks i = some s)
    (hch : s.channel = x)
    (hcb : s.closeB = CloseBehavior.installed false) :
    ∃ st2,
      handleChannelMessage st (WireMsg.close x code reason) = Except.ok st2 ∧
      eventsOf st2 i = eventsOf st i ++ [LEvent.closeEv code reason] ∧
      (∀ j, j ≠ i → eventsOf st2 j = eventsOf st j) ∧
      lookupA st2.channels x = none ∧
      handleChannelMessage st2 (WireMsg.data x payload)
        = Except.ok { st2 with log := st2.log ++ ["channel not found" ++ x] } := by
  have hnone : lookupA (delA st.channels s.channel) x = none := by
    rw [hch]; exact lookupA_delA_self _ x
  refine ⟨{ st with
      physSent := if st.physReady then st.physSent ++ [WireMsg.close s.channel code reason]
                  else st.physSent,
      socks := updSock st.socks i (closeUpd code reason),
      channels := delA st.channels s.channel }, ?_, ?_, ?_, ?_, ?_⟩
  · simp only [handleChannelMessage, channelOf, if_neg hx, hreg, handleMessage,
      callClose, hs, hcb]
  · simp only [eventsOf, findSock_updSock_self (closeUpd code reason) (fun t => rfl) hs,
      hs, Option.map_some', Option.getD_some, closeUpd]
  · intro j hj
    simp only [eventsOf, findSock_updSock_ne (closeUpd code reason) (fun t => rfl) hj]
  · exact hnone
  · simp only [handleChannelMessage, channelOf, if_neg hx, hnone]

/-- Witness for C3 at a connection with one registered stream. -/
theorem c3_close_frame_then_data_miss_witness :
    ("aaa12" : String) ≠ "" ∧
    lookupA regState1.channels "aaa12" = some 0 ∧
    findSock regState1.socks 0 = some
      { sid := 0, channel := "aaa12", closeB := CloseBehavior.installed false,
        events := [] } ∧
    (∃ st2,
      handleChannelMessage regState1 (WireMsg.close "aaa12" (some 1000) none)
        = Except.ok st2 ∧
      eventsOf st2 0 = eventsOf regState1 0 ++ [LEvent.closeEv (some 1000) none] ∧
      (∀ j, j ≠ 0 → eventsOf st2 j = eventsOf regState1 j) ∧
      lookupA st2.channels "aaa12" = none ∧
      handleChannelMessage st2 (WireMsg.data "aaa12" "pp")
        = Except.ok { st2 with log := st2.log ++ ["channel not found" ++ "aaa12"] }) :=
  ⟨by decide, by decide, by decide,
    c3_close_frame_then_data_miss regState1 "aaa12" 0 (some 1000) none "pp"
      { sid := 0, channel := "aaa12", closeB := CloseBehavior.installed false,
        events := [] }
      (by decide) (by decide) (by decide) rfl rfl⟩

/-- C4: for a stream registered by `addChannel`, close() is idempotent:
the first call sends exactly one outbound `close` frame (and only while
the physical connection is open), delivers exactly one local close event,
and removes the registry entry; a second close() call with any arguments
returns the state unchanged. -/
theorem c4_close_idempotent (st : MuxState) (i : Nat) (x : String) (s : MSocket)
    (code code2 : Option Nat) (reason reason2 : Option String)
    (hs : findSock st.socks i = some s)
    (hch : s.channel = x)
    (hcb : s.closeB = CloseBehavior.installed false) :
    ∃ st2,
      callClose st i code reason = Except.ok st2 ∧
      st2.physSent = st.physSent
        ++ (if st.physReady then [WireMsg.close x code reason] else []) ∧
      eventsOf st2 i = eventsOf st i ++ [LEvent.closeEv code reason] ∧
      st2.channels = delA st.channels x ∧
      callClose st2 i code2 reason2 = Except.ok st2 := by
  refine ⟨{ st with
      physSent := if st.physReady then st.physSent ++ [WireMsg.close s.channel code reason]
                  else st.physSent,
      socks := updSock st.socks i (closeUpd code reason),
      channels := delA st.channels s.channel }, ?_, ?_, ?_, ?_, ?_⟩
  · simp only [callClose, hs, hcb]
  · by_cases hr : st.physReady <;> simp [hr, hch]
  · simp only [eventsOf, findSock_updSock_self (closeUpd code reason) (fun t => rfl) hs,
      hs, Option.map_some', Option.getD_some, closeUpd]
  · rw [hch]
  · simp only [callClose, findSock_updSock_self (closeUpd code reason) (fun t => rfl) hs,
      closeUpd]

/-- Witness for C4 at a connection with one registered stream. -/
theorem c4_close_idempotent_witness :
    findSock regState1.socks 0 = some
      { sid := 0, channel := "aaa12", closeB := CloseBehavior.installed false,
        events := [] } ∧
    (∃ st2,
      callClose regState1 0 (some 1001) (some "bye") = Except.ok st2 ∧
      st2.physSent = regState1.physSent
        ++ (if regState1.physReady
            then [WireMsg.close "aaa12" (some 1001) (some "bye")] else []) ∧
      eventsOf st2 0 = eventsOf regState1 0
        ++ [LEvent.closeEv (some 1001) (some "bye")] ∧
      st2.channels = delA regState1.channels "aaa12" ∧
      callClose st2 0 (some 1002) none = Except.ok st2) :=
  ⟨by decide,
    c4_close_idempotent regState1 0 "aaa12"
      { sid := 0, channel := "aaa12", closeB := CloseBehavior.installed false,
        events := [] }
      (some 1001) (some 1002) (some "bye") none (by decide) rfl rfl⟩

/-- The inductive core of C5: running the close loop of the physical
onclose handler over a well-formed registry snapshot closes every
registered stream exactly once, empties the registry, sends nothing (the
transport is no longer open), and touches no other socket object. -/
theorem closeAllGo_spec (code : Option Nat) (reason : Option String) :
    ∀ (chans : List (String × Nat)) (st : MuxState),
      st.channels = chans →
      (∀ p ∈ chans, sockRegOk st.socks p) →
      (chans.map Prod.fst).Nodup →
      (chans.map Prod.snd).Nodup →
      st.physReady = false →
      ∃ st2, closeAllGo st (chans.map Prod.snd) code reason = Except.ok st2 ∧
        st2.channels = [] ∧ st2.physSent = st.physSent ∧ st2.physReady = false ∧
        (∀ p ∈ chans, eventsOf st2 p.2 = eventsOf st p.2 ++ [LEvent.closeEv code reason]) ∧
        (∀ j, j ∉ chans.map Prod.snd → findSock st2.socks j = findSock st.socks j) := by
  intro chans
  induction chans with
  | nil =>
    intro st hch _ _ _ hpr
    exact ⟨st, rfl, hch, rfl, hpr, by simp, fun j _ => rfl⟩
  | cons hd rest ih =>
    intro st hch hok hnf hns hpr
    obtain ⟨k, i⟩ := hd
    obtain ⟨hc1, hc2⟩ := hok (k, i) (List.mem_cons_self _ _)
    cases hfs : findSock st.socks i with
    | none => rw [hfs] at hc1; exact absurd hc1 (by simp)
    | some s =>
      rw [hfs] at hc1 hc2
      simp only [Option.map_some'] at hc1 hc2
      have hsch : s.channel = k := Option.some.inj hc1
      have hscb : s.closeB = CloseBehavior.installed false := Option.some.inj hc2
      rw [List.map_cons] at hnf hns
      obtain ⟨hknotin, hnfrest⟩ := List.nodup_cons.mp hnf
      obtain ⟨hinotin, hnsrest⟩ := List.nodup_cons.mp hns
      set st1 : MuxState := { st with
        physSent := if st.physReady then st.physSent ++ [WireMsg.close s.channel code reason]
                    else st.physSent,
        socks := updSock st.socks i (closeUpd code reason),
        channels := delA st.channels s.channel } with hst1
      have hcc : callClose st i code reason = Except.ok st1 := by
        rw [hst1]
        simp only [callClose, hfs, hscb]
      have h1ch : st1.channels = rest := by
        rw [hst1]
        show delA st.channels s.channel = rest
        rw [hsch, hch]
        simp only [delA, if_pos rfl]
        exact delA_of_not_mem hknotin
      have h1ok : ∀ p ∈ rest, sockRegOk st1.socks p := by
        intro p hp
        have hpmem : p.2 ∈ rest.map Prod.snd := List.mem_map_of_mem Prod.snd hp
        have hpne : p.2 ≠ i := fun he => hinotin (he ▸ hpmem)
        have hfind : findSock st1.socks p.2 = findSock st.socks p.2 := by
          rw [hst1]
          exact findSock_updSock_ne (closeUpd code reason) (fun t => rfl) hpne
        have hold := hok p (List.mem_cons_of_mem _ hp)
        unfold sockRegOk at hold ⊢
        rw [hfind]
        exact hold
      have h1ready : st1.physReady = false := by rw [hst1]; exact hpr
      obtain ⟨st2, hrun, hch2, hsent2, hpr2, hev2, hpres2⟩ :=
        ih st1 h1ch h1ok hnfrest hnsrest h1ready
      refine ⟨st2, ?_, hch2, ?_, hpr2, ?_, ?_⟩
      · simp only [List.map_cons, closeAllGo, hcc]
        exact hrun
      · rw [hsent2, hst1]
        simp [hpr]
      · intro p hp
        rcases List.mem_cons.mp hp with heq | hmem
        · subst heq
          have hf1 : findSock st1.socks i = some (closeUpd code reason s) := by
            rw [hst1]
            exact findSock_updSock_self (closeUpd code reason) (fun t => rfl) hfs
          simp only [eventsOf, hpres2 i hinotin, hf1, hfs, Option.map_some',
            Option.getD_some, closeUpd]
        · have hpmem : p.2 ∈ rest.map Prod.snd := List.mem_map_of_mem Prod.snd hmem
          have hpne : p.2 ≠ i := fun he => hinotin (he ▸ hpmem)
          have hf1 : findSock st1.socks p.2 = findSock st.socks p.2 := by
            rw [hst1]
            exact findSock_updSock_ne (closeUpd code reason) (fun t => rfl) hpne
          have hres := hev2 p hmem
          simp only [eventsOf] at hres ⊢
          rw [hf1] at hres
          exact hres
      · intro j hj
        rw [List.map_cons] at hj
        have hj1 : j ≠ i := fun he => hj (by rw [he]; exact List.mem_cons_self _ _)
        have hj2 : j ∉ rest.map Prod.snd := fun hm => hj (List.mem_cons_of_mem _ hm)
        rw [hpres2 j hj2, hst1]
        exact findSock_updSock_ne (closeUpd code reason) (fun t => rfl) hj1

/-- C5: when the physical connection closes while any number of channels
are registered (all registered by `addChannel` and still open), the wired
onclose handler delivers to every registered Logical Stream exactly one
close event carrying the transport close code and reason, no frame is
sent on the closed transport, and afterwards the Channel Registry is
empty: no channel outlives its transport. -/
theorem c5_transport_close_fanout (st : MuxState) (code : Option Nat)
    (reason : Option String) (hok : regOk st) :
    ∃ st2, physOnClose st code reason = Except.ok st2 ∧
      st2.channels = [] ∧
      st2.physSent = st.physSent ∧
      ∀ p ∈ st.channels, eventsOf st2 p.2 = eventsOf st p.2 ++ [LEvent.closeEv code reason] := by
  obtain ⟨hall, hnf, hns⟩ := hok
  obtain ⟨st2, hrun, hch2, hsent2, _, hev2, _⟩ :=
    closeAllGo_spec code reason st.channels { st with physReady := false } rfl hall hnf hns rfl
  exact ⟨st2, hrun, hch2, hsent2, hev2⟩

/-- Witness for C5 at a connection with three registered streams, matching
the scenario of the spec. -/
theorem c5_transport_close_fanout_witness :
    regOk c5State ∧
    ∃ st2, physOnClose c5State (some 1006) (some "down") = Except.ok st2 ∧
      st2.channels = [] ∧
      st2.physSent = c5State.physSent ∧
      ∀ p ∈ c5State.channels,
        eventsOf st2 p.2 = eventsOf c5State p.2 ++ [LEvent.closeEv (some 1006) (some "down")] :=
  ⟨by decide, c5_transport_close_fanout c5State (some 1006) (some "down") (by decide)⟩

theorem updSock_append (xs ys : List MSocket) (i : Nat) (f : MSocket → MSocket) :
    updSock (xs ++ ys) i f = updSock xs i f ++ updSock ys i f := by
  simp [updSock]

theorem clientSendRaw_socks (c : ClientState) (m : WireMsg) :
    (clientSendRaw c m).mux.socks = c.mux.socks := by
  cases hp : c.pending <;> simp [clientSendRaw, hp]

/-- C6: two socket requests whose endpoint urls share the same base (the
url up to its last slash) and the same protocols string hit the same pool
key, so the second request returns the client of the first and leaves the
pool unchanged: in particular `nextId`, the number of constructed
physical connections, does not grow. -/
theorem c6_same_base_reuses_connection (p : Pool) (u1 u2 protos : String)
    (hbase : baseOf u1 = baseOf u2) :
    (requestSocket (requestSocket p u1 protos).2 u2 protos).1
      = (requestSocket p u1 protos).1 ∧
    (requestSocket (requestSocket p u1 protos).2 u2 protos).2
      = (requestSocket p u1 protos).2 := by
  simp only [requestSocket, ← hbase]
  cases hl : lookupA p.entries (baseOf u1 ++ protos) with
  | some cid => simp [getMuxer, hl]
  | none =>
    have hl2 : lookupA (p.entries ++ [(baseOf u1 ++ protos, p.nextId)])
        (baseOf u1 ++ protos) = some p.nextId := by
      rw [lookupA_append_right _ hl]
      simp [lookupA]
    simp [getMuxer, hl, hl2]

/-- Witness for C6: urls `ws://h/echo` and `ws://h/chat` share the base
`ws://h`; starting from the empty pool the second request reuses the
client constructed by the first. -/
theorem c6_same_base_reuses_connection_witness :
    baseOf "ws://h/echo" = baseOf "ws://h/chat" ∧
    ((requestSocket (requestSocket { entries := [], nextId := 0 } "ws://h/echo" "").2
        "ws://h/chat" "").1
      = (requestSocket { entries := [], nextId := 0 } "ws://h/echo" "").1 ∧
     (requestSocket (requestSocket { entries := [], nextId := 0 } "ws://h/echo" "").2
        "ws://h/chat" "").2
      = (requestSocket { entries := [], nextId := 0 } "ws://h/echo" "").2) :=
  ⟨by decide,
    c6_same_base_reuses_connection { entries := [], nextId := 0 }
      "ws://h/echo" "ws://h/chat" "" (by decide)⟩

theorem runConnects_pending (reqs : List (Nat × String × String)) :
    ∀ (c : ClientState) (q : List WireMsg), c.pending = some q →
      (runConnects c reqs).pending = some (q ++ reqs.map connectFrame) ∧
      (runConnects c reqs).mux.physSent = c.mux.physSent := by
  induction reqs with
  | nil => intro c q hq; simp [runConnects, hq]
  | cons r rest ih =>
    intro c q hq
    have h1 : (clientConnect c r.1 r.2.1 r.2.2).pending = some (q ++ [connectFrame r]) := by
      simp [clientConnect, clientSendRaw, hq, connectFrame]
    have h2 : (clientConnect c r.1 r.2.1 r.2.2).mux.physSent = c.mux.physSent := by
      simp [clientConnect, clientSendRaw, hq]
    obtain ⟨ha, hb⟩ := ih (clientConnect c r.1 r.2.1 r.2.2) (q ++ [connectFrame r]) h1
    constructor
    · rw [runConnects, ha]
      simp
    · rw [runConnects, hb, h2]

theorem runConnects_direct (reqs : List (Nat × String × String)) :
    ∀ (c : ClientState), c.pending = none →
      (runConnects c reqs).pending = none ∧
      (runConnects c reqs).mux.physSent = c.mux.physSent ++ reqs.map connectFrame := by
  induction reqs with
  | nil => intro c hq; simp [runConnects, hq]
  | cons r rest ih =>
    intro c hq
    have h1 : (clientConnect c r.1 r.2.1 r.2.2).pending = none := by
      simp [clientConnect, clientSendRaw, hq]
    have h2 : (clientConnect c r.1 r.2.1 r.2.2).mux.physSent
        = c.mux.physSent ++ [connectFrame r] := by
      simp [clientConnect, clientSendRaw, hq, connectFrame]
    obtain ⟨ha, hb⟩ := ih (clientConnect c r.1 r.2.1 r.2.2) h1
    constructor
    · rw [runConnects]; exact ha
    · rw [runConnects, hb, h2]; simp

/-- C7: every `connect` frame send requested before the transport becomes
ready is queued, not transmitted; when the transport becomes ready all
queued sends are transmitted in submission order; and every send
requested afterwards is transmitted immediately, the queue staying
undefined. -/
theorem c7_queue_before_ready_flush_in_order (reqs1 reqs2 : List (Nat × String × String)) :
    (runConnects newClient reqs1).mux.physSent = [] ∧
    (runConnects newClient reqs1).pending = some (reqs1.map connectFrame) ∧
    (clientOnOpen (runConnects newClient reqs1)).mux.physSent = reqs1.map connectFrame ∧
    (clientOnOpen (runConnects newClient reqs1)).pending = none ∧
    (runConnects (clientOnOpen (runConnects newClient reqs1)) reqs2).mux.physSent
      = reqs1.map connectFrame ++ reqs2.map connectFrame ∧
    (runConnects (clientOnOpen (runConnects newClient reqs1)) reqs2).pending = none := by
  obtain ⟨hp1, hs1⟩ := runConnects_pending reqs1 newClient [] rfl
  have hs1z : (runConnects newClient reqs1).mux.physSent = [] := by rw [hs1]; rfl
  have hp1z : (runConnects newClient reqs1).pending = some (reqs1.map connectFrame) := by
    rw [hp1]; simp
  have hosent : (clientOnOpen (runConnects newClient reqs1)).mux.physSent
      = reqs1.map connectFrame := by
    simp [clientOnOpen, hs1z, hp1z]
  have hopend : (clientOnOpen (runConnects newClient reqs1)).pending = none := rfl
  obtain ⟨ha2, hb2⟩ := runConnects_direct reqs2 (clientOnOpen (runConnects newClient reqs1)) hopend
  refine ⟨hs1z, hp1z, hosent, hopend, ?_, ha2⟩
  rw [hb2, hosent]

/-- C8, counterexample: the claim fails when the last non-empty segment
names a property the backends record inherits from the Object prototype.
`constructor` is not a key of the supplied table (`echo` only), yet
`backends["constructor"]` is the truthy inherited Object function, so
the server does not drop the request: it sends an `open` frame, consumes
an id from the `randomId` oracle, registers a channel, hands the socket
to the resolved value, and logs nothing. -/
theorem c8_proto_segment_not_dropped :
    ("constructor" ∉ c8ServerState.backends) ∧
    (handleConnectMessage c8ServerState "r1" "ws://h/constructor").mux.physSent
      = c8ServerState.mux.physSent ++ [WireMsg.openm "abc12" "r1"] ∧
    lookupA (handleConnectMessage c8ServerState "r1" "ws://h/constructor").mux.channels
      "abc12" = some 0 ∧
    (handleConnectMessage c8ServerState "r1" "ws://h/constructor").ids = [] ∧
    (handleConnectMessage c8ServerState "r1" "ws://h/constructor").exposed = [0] ∧
    (handleConnectMessage c8ServerState "r1" "ws://h/constructor").mux.log
      = c8ServerState.mux.log := by
  decide

/-- C8, amended: a `connect` message whose backend url last non-empty path
segment is neither a key of the supplied backends table nor one of the
property names inherited from the Object prototype only logs
`backend not found`: no frame is sent, no id is taken from the `randomId`
oracle, no registry entry or socket object is created, nothing is handed
to a backend, and the handler returns normally. -/
theorem c8_unresolved_backend_is_noop (s : ServerState) (ref backendUrl : String)
    (hmiss : ∀ seg, lastSegment backendUrl = some seg →
      seg ∉ s.backends ∧ seg ∉ protoKeys) :
    handleConnectMessage s ref backendUrl
      = { s with mux := { s.mux with log := s.mux.log ++ ["backend not found"] } } ∧
    (handleConnectMessage s ref backendUrl).mux.physSent = s.mux.physSent ∧
    (handleConnectMessage s ref backendUrl).ids = s.ids ∧
    (handleConnectMessage s ref backendUrl).mux.channels = s.mux.channels ∧
    (handleConnectMessage s ref backendUrl).mux.socks = s.mux.socks ∧
    (handleConnectMessage s ref backendUrl).exposed = s.exposed := by
  have hb : getBackendHit s.backends backendUrl = false := by
    unfold getBackendHit
    cases hseg : lastSegment backendUrl with
    | none => rfl
    | some seg =>
      obtain ⟨h1, h2⟩ := hmiss seg hseg
      show (s.backends.contains seg || protoKeys.contains seg) = false
      cases hc1 : s.backends.contains seg with
      | true => exact absurd (List.mem_of_elem_eq_true hc1) h1
      | false =>
        cases hc2 : protoKeys.contains seg with
        | true => exact absurd (List.mem_of_elem_eq_true hc2) h2
        | false => rfl
  refine ⟨?_, ?_, ?_, ?_, ?_, ?_⟩ <;> simp [handleConnectMessage, hb]

/-- Witness for the amended C8: the last segment of `ws://h/missing` is
neither a supplied key nor an inherited Object prototype property. -/
theorem c8_unresolved_backend_is_noop_witness :
    (∀ seg, lastSegment "ws://h/missing" = some seg →
      seg ∉ c8ServerState.backends ∧ seg ∉ protoKeys) ∧
    handleConnectMessage c8ServerState "r1" "ws://h/missing"
      = { c8ServerState with mux := { c8ServerState.mux with
            log := c8ServerState.mux.log ++ ["backend not found"] } } ∧
    (handleConnectMessage c8ServerState "r1" "ws://h/missing").ids = c8ServerState.ids :=
  have hm : ∀ seg, lastSegment "ws://h/missing" = some seg →
      seg ∉ c8ServerState.backends ∧ seg ∉ protoKeys := by
    intro seg h
    have he : lastSegment "ws://h/missing" = some "missing" := by decide
    rw [he] at h
    rw [← Option.some.inj h]
    exact ⟨by decide, by decide⟩
  ⟨hm, (c8_unresolved_backend_is_noop c8ServerState "r1" "ws://h/missing" hm).1,
    (c8_unresolved_backend_is_noop c8ServerState "r1" "ws://h/missing" hm).2.2.1⟩

theorem poolStep_preserves {p : Pool} {k : String} {c : Nat} (op : PoolOp)
    (h : lookupA p.entries k = some c) :
    lookupA (poolStep p op).entries k = some c := by
  cases op with
  | getM url protos =>
    simp only [poolStep, requestSocket, getMuxer]
    cases hl : lookupA p.entries (baseOf url ++ protos) with
    | some cid => simp only [hl]; exact h
    | none => simp only [hl]; exact lookupA_append_left _ h
  | connClose _ => exact h
  | connError _ => exact h

theorem poolRun_preserves (ops : List PoolOp) : ∀ (p : Pool) (k : String) (c : Nat),
    lookupA p.entries k = some c → lookupA (poolRun p ops).entries k = some c := by
  induction ops with
  | nil => intro p k c h; exact h
  | cons op rest ih => intro p k c h; exact ih _ _ _ (poolStep_preserves op h)

/-- C9: once the pool maps a (base endpoint, protocols) key to a client,
no later pool-visible event removes or replaces the entry: further socket
requests for any key and transport close or error events on any pooled
client leave it in place, and a later request with the same key receives
the same pooled client, even after its physical connection closed or
errored. -/
theorem c9_pool_entry_permanent (p : Pool) (ops : List PoolOp) (url protos : String)
    (c : Nat) (h : lookupA p.entries (baseOf url ++ protos) = some c) :
    lookupA (poolRun p ops).entries (baseOf url ++ protos) = some c ∧
    (requestSocket (poolRun p ops) url protos).1 = c := by
  have hmain := poolRun_preserves ops p (baseOf url ++ protos) c h
  refine ⟨hmain, ?_⟩
  simp [requestSocket, getMuxer, hmain]

/-- Witness for C9: the pooled client 0 for base `ws://h` survives a
transport close, a transport error and an unrelated request, and a later
request for `ws://h/echo` still receives client 0. -/
theorem c9_pool_entry_permanent_witness :
    lookupA ({ entries := [("ws://h", 0)], nextId := 1 } : Pool).entries
      (baseOf "ws://h/echo" ++ "") = some 0 ∧
    (lookupA (poolRun { entries := [("ws://h", 0)], nextId := 1 }
        [PoolOp.connClose "ws://h", PoolOp.connError "ws://h",
         PoolOp.getM "ws://other/x" ""]).entries (baseOf "ws://h/echo" ++ "") = some 0 ∧
     (requestSocket (poolRun { entries := [("ws://h", 0)], nextId := 1 }
        [PoolOp.connClose "ws://h", PoolOp.connError "ws://h",
         PoolOp.getM "ws://other/x" ""]) "ws://h/echo" "").1 = 0) :=
  ⟨by decide,
    c9_pool_entry_permanent { entries := [("ws://h", 0)], nextId := 1 }
      [PoolOp.connClose "ws://h", PoolOp.connError "ws://h",
       PoolOp.getM "ws://other/x" ""] "ws://h/echo" "" 0 (by decide)⟩

/-- C10: the base close method throws, but both public construction paths
replace it before the stream reaches application code: the client
constructor ends with `muxer.connect`, which installs the temporary close
handler, and the server `connect` handler calls `addChannel` (installing
the full close handler) before handing the socket to the backend
callback. The first conjunct shows the throwing branch on a
mid-construction socket; the remaining conjuncts show the close function
installed at the respective exposure points. -/
theorem c10_base_close_replaced_before_exposure (c : ClientState) (i : Nat)
    (ref url : String) (s : ServerState) (ref2 url2 newId : String) (rest : List String)
    (hci : ∀ t ∈ c.mux.socks, t.sid ≠ i)
    (hsi : ∀ t ∈ s.mux.socks, t.sid ≠ s.nextSid)
    (hhit : getBackendHit s.backends url2 = true)
    (hids : s.ids = newId :: rest) :
    callClose preConnectSocketState 0 none none
      = Except.error "This method should be overridden by the Multiplexer." ∧
    (findSock (newMultiplexSocket c i ref url).mux.socks i).map MSocket.closeB
      = some (CloseBehavior.tempRef ref) ∧
    (findSock (handleConnectMessage s ref2 url2).mux.socks s.nextSid).map MSocket.closeB
      = some (CloseBehavior.installed false) ∧
    (handleConnectMessage s ref2 url2).exposed = s.exposed ++ [s.nextSid] := by
  refine ⟨rfl, ?_, ?_, ?_⟩
  · have hb : (newMultiplexSocket c i ref url).mux.socks
        = updSock (c.mux.socks ++
            [{ sid := i, channel := "", closeB := CloseBehavior.base, events := [] }]) i
            (fun t => { t with closeB := CloseBehavior.tempRef ref }) := by
      simp only [newMultiplexSocket, clientConnect]
      rw [clientSendRaw_socks]
    rw [hb, updSock_append, updSock_of_fresh _ hci, findSock_append_of_fresh _ hci]
    simp [updSock, findSock]
  · have hb : (handleConnectMessage s ref2 url2).mux.socks
        = updSock (updSock (s.mux.socks ++
            [{ sid := s.nextSid, channel := "", closeB := CloseBehavior.base, events := [] }])
            s.nextSid (fun t =>
              { t with channel := newId, closeB := CloseBehavior.installed false }))
            s.nextSid (fun t => { t with events := t.events ++ [LEvent.openEv] }) := by
      simp [handleConnectMessage, hhit, hids, addChannel]
    rw [hb, updSock_append, updSock_of_fresh _ hsi, updSock_append, updSock_of_fresh _ hsi,
      findSock_append_of_fresh _ hsi]
    simp [updSock, findSock]
  · simp [handleConnectMessage, hhit, hids]

/-- Witness for C10 at a fresh client and a server with an `echo` backend. -/
theorem c10_base_close_replaced_before_exposure_witness :
    (∀ t ∈ newClient.mux.socks, t.sid ≠ 0) ∧
    (∀ t ∈ c8ServerState.mux.socks, t.sid ≠ c8ServerState.nextSid) ∧
    getBackendHit c8ServerState.backends "ws://h/echo" = true ∧
    c8ServerState.ids = "abc12" :: [] ∧
    (callClose preConnectSocketState 0 none none
      = Except.error "This method should be overridden by the Multiplexer." ∧
    (findSock (newMultiplexSocket newClient 0 "ref01" "ws://h/echo").mux.socks 0).map
        MSocket.closeB = some (CloseBehavior.tempRef "ref01") ∧
    (findSock (handleConnectMessage c8ServerState "r1" "ws://h/echo").mux.socks
        c8ServerState.nextSid).map MSocket.closeB
      = some (CloseBehavior.installed false) ∧
    (handleConnectMessage c8ServerState "r1" "ws://h/echo").exposed
      = c8ServerState.exposed ++ [c8ServerState.nextSid]) :=
  ⟨by simp [newClient], by simp [c8ServerState, emptyMux], by decide, rfl,
    c10_base_close_replaced_before_exposure newClient 0 "ref01" "ws://h/echo"
      c8ServerState "r1" "ws://h/echo" "abc12" [] (by simp [newClient])
      (by simp [c8ServerState, emptyMux]) (by decide) rfl⟩
